import Mathlib

/-!
Verification of the RetroCare voice anomaly-detection scoring core.

The Python sources `utils/scoring.py`, `utils/audio.py` and `main.py` are
shallowly embedded here: embeddings are lists of real numbers (idealising
IEEE-754 doubles), fallible functions return `Except String`, and the
`compute_snr` estimator is parametrised over the signal/noise powers its
librosa STFT front end produces (the STFT itself is an external library).
-/

namespace RetroCare

/-- Dot product of two vectors held as lists (np.dot on 1-D arrays). -/
def dot (a b : List ℝ) : ℝ := (List.zipWith (fun x y => x * y) a b).sum

/-- Sum of squared entries of a vector. -/
def sumSq (a : List ℝ) : ℝ := (a.map (fun x => x * x)).sum

/-- Euclidean norm of a vector (np.linalg.norm). -/
noncomputable def norm (a : List ℝ) : ℝ := Real.sqrt (sumSq a)

/-- Embedding of scoring.cosine_similarity: raises (here: returns an error)
when the shapes differ, returns 0.0 when either norm is zero, and otherwise
the dot product over the product of norms, clamped into [-1, 1]. -/
noncomputable def cosine_similarity (emb1 emb2 : List ℝ) : Except String ℝ :=
  if emb1.length ≠ emb2.length then
    .error "Embedding shapes do not match"
  else if norm emb1 = 0 ∨ norm emb2 = 0 then
    .ok 0
  else
    .ok (max (-1) (min 1 (dot emb1 emb2 / (norm emb1 * norm emb2))))

/-- Embedding of scoring.similarity_to_anomaly: 1 - similarity, clamped
into [0, 1] (the Python code applies min 1 first, then max 0). -/
noncomputable def similarity_to_anomaly (similarity : ℝ) : ℝ :=
  max 0 (min 1 (1 - similarity))

/-- Embedding of scoring.apply_noise_normalization: for snr below 15 dB the
anomaly score is reduced by reduction_factor = 0.25 * (15 - snr) / 15 of
itself, floored at zero; otherwise it is returned unchanged. -/
noncomputable def apply_noise_normalization (anomaly_score snr : ℝ) : ℝ :=
  if snr < 15 then
    let reduction_factor := 0.25 * (15 - snr) / 15
    let reduction := anomaly_score * reduction_factor
    let normalized := anomaly_score - reduction
    max 0 normalized
  else
    anomaly_score

/-- Embedding of scoring.apply_time_compensation: identity for hour = None,
an 8% reduction floored at zero for hours 6..9, a 6% reduction floored at
zero for hours 18..21, identity for every other integer hour. -/
noncomputable def apply_time_compensation (anomaly_score : ℝ) (hour : Option ℤ) : ℝ :=
  match hour with
  | none => anomaly_score
  | some h =>
    if 6 ≤ h ∧ h ≤ 9 then
      max 0 (anomaly_score - anomaly_score * 0.08)
    else if 18 ≤ h ∧ h ≤ 21 then
      max 0 (anomaly_score - anomaly_score * 0.06)
    else
      anomaly_score

/-- Embedding of scoring.average_embeddings: error on an empty list;
otherwise the element-wise sum (np.mean's numerator, a fold of pointwise
additions) divided by the count, normalised to unit length when its norm
is positive and returned unnormalised otherwise. -/
noncomputable def average_embeddings : List (List ℝ) → Except String (List ℝ)
  | [] => .error "Cannot average empty list of embeddings"
  | v :: rest =>
    let summed := rest.foldl (fun acc w => List.zipWith (fun x y => x + y) acc w) v
    let averaged := summed.map (fun x => x / (((v :: rest).length : ℕ) : ℝ))
    let nrm := norm averaged
    if 0 < nrm then .ok (averaged.map (fun x => x / nrm)) else .ok averaged

/-- Inputs to the SNR estimator once its librosa STFT front end has run:
the mean squared magnitude over the whole grid (signal power), the mean
squared magnitude of the bins at or below the 20th percentile (noise
power), and whether any step of that front end raised. These are abstracted
because the STFT is an external library call, not repository code. -/
structure SnrInputs where
  signal_power : ℝ
  noise_power : ℝ
  stft_failed : Bool

/-- Embedding of audio.compute_snr: on any internal failure return the
default 15.0; otherwise floor the noise power at 1e-10, convert the power
ratio to decibels and clamp into [0, 30]. -/
noncomputable def compute_snr (inp : SnrInputs) : ℝ :=
  if inp.stft_failed then 15.0
  else
    let noise_power := if inp.noise_power < 1e-10 then 1e-10 else inp.noise_power
    let snr_linear := inp.signal_power / noise_power
    let snr_db := 10 * Real.logb 10 snr_linear
    max 0 (min 30 snr_db)

/-- Response model of the /compare endpoint (main.CompareResponse). -/
structure CompareResponse where
  score : ℝ
  raw_similarity : ℝ
  normalized : ℝ
  snr : ℝ

/-- Embedding of main.compare_embeddings: check dimensions, compute cosine
similarity, convert to a raw anomaly score, apply noise normalization, then
time-of-day compensation only when an hour is supplied; both the score and
normalized fields of the response carry the final figure. -/
noncomputable def compare_embeddings (baseline current : List ℝ) (snr : ℝ)
    (hour : Option ℤ) : Except String CompareResponse :=
  if baseline.length ≠ current.length then
    .error "Embedding dimensions do not match"
  else
    match cosine_similarity baseline current with
    | .error e => .error e
    | .ok similarity =>
      let anomaly_score := similarity_to_anomaly similarity
      let noise_normalized := apply_noise_normalization anomaly_score snr
      let final_score :=
        match hour with
        | none => noise_normalized
        | some h => apply_time_compensation noise_normalized (some h)
      .ok ⟨final_score, similarity, final_score, snr⟩

/-- Zipping a list with itself under multiplication squares each entry. -/
theorem zipWith_mul_self (a : List ℝ) :
    List.zipWith (fun x y => x * y) a a = a.map (fun x => x * x) := by
  induction a with
  | nil => rfl
  | cons x t ih => simp [List.zipWith, ih]

/-- The dot product of a vector with itself is its sum of squares. -/
theorem dot_self (a : List ℝ) : dot a a = sumSq a := by
  simp [dot, sumSq, zipWith_mul_self]

/-- Sums of squares are nonnegative. -/
theorem sumSq_nonneg (a : List ℝ) : 0 ≤ sumSq a := by
  refine List.sum_nonneg ?_
  intro x hx
  rcases List.mem_map.mp hx with ⟨y, _, rfl⟩
  exact mul_self_nonneg y

/-- The Euclidean norm is nonnegative. -/
theorem norm_nonneg (a : List ℝ) : 0 ≤ norm a := Real.sqrt_nonneg _

/-- The norm vanishes exactly when the sum of squares does. -/
theorem norm_eq_zero_iff (a : List ℝ) : norm a = 0 ↔ sumSq a = 0 := by
  unfold norm
  rw [Real.sqrt_eq_zero (sumSq_nonneg a)]

/-- A vector with a nonzero entry has positive sum of squares. -/
theorem sumSq_pos_of_ne_zero (a : List ℝ) (hv : ∃ y ∈ a, y ≠ 0) : 0 < sumSq a := by
  induction a with
  | nil => simp at hv
  | cons x t ih =>
    have hx : sumSq (x :: t) = x * x + sumSq t := by simp [sumSq]
    rcases hv with ⟨y, hy, hy0⟩
    rcases List.mem_cons.mp hy with rfl | hyt
    · have h1 : 0 < y * y := mul_self_pos.mpr hy0
      have h2 : 0 ≤ sumSq t := sumSq_nonneg t
      rw [hx]
      linarith
    · have h1 : 0 < sumSq t := ih ⟨y, hyt, hy0⟩
      have h2 : 0 ≤ x * x := mul_self_nonneg x
      rw [hx]
      linarith

/-- Cosine similarity of a vector having a nonzero entry with itself is 1. -/
theorem cosine_similarity_self (v : List ℝ) (hv : ∃ y ∈ v, y ≠ 0) :
    cosine_similarity v v = .ok 1 := by
  have hpos : 0 < sumSq v := sumSq_pos_of_ne_zero v hv
  have hn : ¬(norm v = 0 ∨ norm v = 0) := by
    rw [or_self, norm_eq_zero_iff]
    exact hpos.ne'
  rw [cosine_similarity, if_neg (by simp), if_neg hn, dot_self,
    show norm v * norm v = sumSq v from Real.mul_self_sqrt (sumSq_nonneg v),
    div_self hpos.ne']
  norm_num

/-- On equal-length inputs cosine_similarity succeeds with a value in
[-1, 1]. -/
theorem cosine_similarity_ok (a b : List ℝ) (hlen : a.length = b.length) :
    ∃ s, cosine_similarity a b = .ok s ∧ -1 ≤ s ∧ s ≤ 1 := by
  rw [cosine_similarity, if_neg (not_ne_iff.mpr hlen)]
  by_cases hz : norm a = 0 ∨ norm b = 0
  · rw [if_pos hz]
    exact ⟨0, rfl, by norm_num, by norm_num⟩
  · rw [if_neg hz]
    refine ⟨_, rfl, le_max_left _ _, max_le (by norm_num) (min_le_left _ _)⟩

/-- similarity_to_anomaly always lands in [0, 1]. -/
theorem similarity_to_anomaly_mem (s : ℝ) :
    0 ≤ similarity_to_anomaly s ∧ similarity_to_anomaly s ≤ 1 :=
  ⟨le_max_left _ _, max_le (by norm_num) (min_le_left _ _)⟩

/-- Noise normalization of a nonnegative score stays in [0, input]. -/
theorem apply_noise_normalization_bounds (a snr : ℝ) (ha : 0 ≤ a) :
    0 ≤ apply_noise_normalization a snr ∧ apply_noise_normalization a snr ≤ a := by
  by_cases h : snr < 15
  · simp only [apply_noise_normalization, if_pos h]
    refine ⟨le_max_left _ _, max_le ha ?_⟩
    have h1 : 0 ≤ a * (15 - snr) := mul_nonneg ha (by linarith)
    nlinarith
  · simp only [apply_noise_normalization, if_neg h]
    exact ⟨ha, le_refl a⟩

/-- Time compensation of a nonnegative score stays in [0, input]. -/
theorem apply_time_compensation_bounds (a : ℝ) (hour : Option ℤ) (ha : 0 ≤ a) :
    0 ≤ apply_time_compensation a hour ∧ apply_time_compensation a hour ≤ a := by
  match hour with
  | none => exact ⟨ha, le_refl a⟩
  | some h =>
    by_cases hm : 6 ≤ h ∧ h ≤ 9
    · simp only [apply_time_compensation, if_pos hm]
      exact ⟨le_max_left _ _, max_le ha (by nlinarith)⟩
    · by_cases he : 18 ≤ h ∧ h ≤ 21
      · simp only [apply_time_compensation, if_neg hm, if_pos he]
        exact ⟨le_max_left _ _, max_le ha (by nlinarith)⟩
      · simp only [apply_time_compensation, if_neg hm, if_neg he]
        exact ⟨ha, le_refl a⟩

/-- On a successful cosine similarity, compare_embeddings returns the
pipeline composition: noise normalization first, then time compensation,
with the final figure in both the score and normalized fields. -/
theorem compare_embeddings_ok (baseline current : List ℝ) (snr : ℝ)
    (hour : Option ℤ) (s : ℝ) (hs : cosine_similarity baseline current = .ok s)
    (hlen : baseline.length = current.length) :
    compare_embeddings baseline current snr hour =
      .ok ⟨apply_time_compensation
            (apply_noise_normalization (similarity_to_anomaly s) snr) hour,
          s,
          apply_time_compensation
            (apply_noise_normalization (similarity_to_anomaly s) snr) hour,
          snr⟩ := by
  rw [compare_embeddings, if_neg (not_ne_iff.mpr hlen), hs]
  cases hour with
  | none => rfl
  | some h => rfl

/-- C5: cosine_similarity signals the shape-mismatch error exactly when the
two vectors have different lengths, and on equal lengths with either norm
exactly zero returns 0.0 without error; the spec's two concrete tests hold. -/
theorem cosine_similarity_error_spec (a b : List ℝ) :
    (a.length ≠ b.length ↔ ∃ e, cosine_similarity a b = .error e) ∧
    (a.length = b.length → norm a = 0 ∨ norm b = 0 →
      cosine_similarity a b = .ok 0) ∧
    cosine_similarity [0, 0, 0] [1, 0, 0] = .ok 0 ∧
    (∃ e, cosine_similarity [1, 0] [1, 0, 0] = .error e) := by
  refine ⟨⟨fun hne => ?_, fun he => ?_⟩, fun hlen hz => ?_, ?_, ?_⟩
  · exact ⟨"Embedding shapes do not match", by rw [cosine_similarity, if_pos hne]⟩
  · by_contra hne
    rcases he with ⟨e, he⟩
    rw [cosine_similarity, if_neg (not_ne_iff.mpr hne)] at he
    split at he <;> simp at he
  · rw [cosine_similarity, if_neg (not_ne_iff.mpr hlen), if_pos hz]
  · have hz : norm [(0:ℝ), 0, 0] = 0 := by
      rw [norm_eq_zero_iff]
      norm_num [sumSq]
    rw [cosine_similarity, if_neg (by simp), if_pos (Or.inl hz)]
  · exact ⟨_, by rw [cosine_similarity, if_pos (by simp)]⟩

/-- C8: identity cases of the scorer: cosine similarity of a nonzero vector
with itself is 1.0, a similarity of 1.0 gives zero anomaly, time
compensation with no hour is the identity, and noise normalization at
snr = 15 and snr = 30 is the identity. -/
theorem identity_cases (v : List ℝ) (x : ℝ) (hv : ∃ y ∈ v, y ≠ 0) :
    cosine_similarity v v = .ok 1 ∧
    similarity_to_anomaly 1 = 0 ∧
    apply_time_compensation x none = x ∧
    apply_noise_normalization x 15 = x ∧
    apply_noise_normalization x 30 = x := by
  refine ⟨cosine_similarity_self v hv, ?_, rfl, ?_, ?_⟩
  · norm_num [similarity_to_anomaly]
  · rw [apply_noise_normalization, if_neg (by norm_num)]
  · rw [apply_noise_normalization, if_neg (by norm_num)]

/-- Witness for C8 at the concrete inputs v = [1, 0] and x = 0.5. -/
theorem identity_cases_witness :
    cosine_similarity [1, 0] [1, 0] = .ok 1 ∧
    similarity_to_anomaly 1 = 0 ∧
    apply_time_compensation 0.5 none = 0.5 ∧
    apply_noise_normalization 0.5 15 = 0.5 ∧
    apply_noise_normalization 0.5 30 = 0.5 :=
  identity_cases [1, 0] 0.5 ⟨1, by simp, one_ne_zero⟩

/-- C3: apply_noise_normalization is the identity for snr at or above 15,
and below 15 multiplies by (1 - 0.25 * (15 - snr) / 15) floored at zero;
the two boundary examples from the spec evaluate as stated. -/
theorem noise_normalization_spec (a snr : ℝ) :
    (15 ≤ snr → apply_noise_normalization a snr = a) ∧
    (snr < 15 →
      apply_noise_normalization a snr = max 0 (a * (1 - 0.25 * (15 - snr) / 15))) ∧
    apply_noise_normalization 0.8 0 = 0.6 ∧
    apply_noise_normalization 0.8 7.5 = 0.7 := by
  refine ⟨fun h => ?_, fun h => ?_, ?_, ?_⟩
  · simp only [apply_noise_normalization, if_neg (not_lt.mpr h)]
  · simp only [apply_noise_normalization, if_pos h]
    ring_nf
  · simp only [apply_noise_normalization, if_pos (by norm_num : (0:ℝ) < 15)]
    norm_num
  · simp only [apply_noise_normalization, if_pos (by norm_num : (7.5:ℝ) < 15)]
    norm_num

/-- C4: apply_time_compensation is the identity for hour = None, multiplies
by 0.92 floored at zero on the morning window 6..9, by 0.94 floored at zero
on the evening window 18..21, is the identity elsewhere; the two windows are
disjoint so at most one discount applies; and the spec's four concrete
evaluations hold. -/
theorem time_compensation_spec (x : ℝ) (h : ℤ) :
    apply_time_compensation x none = x ∧
    (6 ≤ h ∧ h ≤ 9 →
      apply_time_compensation x (some h) = max 0 (x * (1 - 0.08))) ∧
    (18 ≤ h ∧ h ≤ 21 →
      apply_time_compensation x (some h) = max 0 (x * (1 - 0.06))) ∧
    (¬(6 ≤ h ∧ h ≤ 9) → ¬(18 ≤ h ∧ h ≤ 21) →
      apply_time_compensation x (some h) = x) ∧
    ¬((6 ≤ h ∧ h ≤ 9) ∧ (18 ≤ h ∧ h ≤ 21)) ∧
    apply_time_compensation 1 (some 7) = 0.92 ∧
    apply_time_compensation 1 (some 19) = 0.94 ∧
    apply_time_compensation 1 (some 12) = 1 ∧
    apply_time_compensation 1 (some 5) = 1 := by
  refine ⟨rfl, fun hm => ?_, fun he => ?_, fun hm he => ?_, ?_, ?_, ?_, ?_, ?_⟩
  · simp only [apply_time_compensation, if_pos hm]
    ring_nf
  · have hm : ¬(6 ≤ h ∧ h ≤ 9) := by
      rintro ⟨h1, h2⟩
      omega
    simp only [apply_time_compensation, if_neg hm, if_pos he]
    ring_nf
  · simp only [apply_time_compensation, if_neg hm, if_neg he]
  · rintro ⟨⟨h1, h2⟩, ⟨h3, h4⟩⟩
    omega
  · simp only [apply_time_compensation, if_pos (by decide : (6:ℤ) ≤ 7 ∧ (7:ℤ) ≤ 9)]
    norm_num
  · simp only [apply_time_compensation,
      if_neg (by decide : ¬((6:ℤ) ≤ 19 ∧ (19:ℤ) ≤ 9)),
      if_pos (by decide : (18:ℤ) ≤ 19 ∧ (19:ℤ) ≤ 21)]
    norm_num
  · simp only [apply_time_compensation,
      if_neg (by decide : ¬((6:ℤ) ≤ 12 ∧ (12:ℤ) ≤ 9)),
      if_neg (by decide : ¬((18:ℤ) ≤ 12 ∧ (12:ℤ) ≤ 21))]
  · simp only [apply_time_compensation,
      if_neg (by decide : ¬((6:ℤ) ≤ 5 ∧ (5:ℤ) ≤ 9)),
      if_neg (by decide : ¬((18:ℤ) ≤ 5 ∧ (5:ℤ) ≤ 21))]

/-- C10: apply_time_compensation is total over all integers: for every hour
outside both discount windows, including out-of-domain values such as -1,
24 or 100, it returns its input unchanged (and, being a total function of
type ℝ, never raises). -/
theorem time_compensation_total (x : ℝ) (h : ℤ)
    (hm : ¬(6 ≤ h ∧ h ≤ 9)) (he : ¬(18 ≤ h ∧ h ≤ 21)) :
    apply_time_compensation x (some h) = x ∧
    apply_time_compensation x (some (-1)) = x ∧
    apply_time_compensation x (some 24) = x ∧
    apply_time_compensation x (some 100) = x := by
  refine ⟨?_, ?_, ?_, ?_⟩
  · simp only [apply_time_compensation, if_neg hm, if_neg he]
  · simp only [apply_time_compensation,
      if_neg (by decide : ¬((6:ℤ) ≤ -1 ∧ (-1:ℤ) ≤ 9)),
      if_neg (by decide : ¬((18:ℤ) ≤ -1 ∧ (-1:ℤ) ≤ 21))]
  · simp only [apply_time_compensation,
      if_neg (by decide : ¬((6:ℤ) ≤ 24 ∧ (24:ℤ) ≤ 9)),
      if_neg (by decide : ¬((18:ℤ) ≤ 24 ∧ (24:ℤ) ≤ 21))]
  · simp only [apply_time_compensation,
      if_neg (by decide : ¬((6:ℤ) ≤ 100 ∧ (100:ℤ) ≤ 9)),
      if_neg (by decide : ¬((18:ℤ) ≤ 100 ∧ (100:ℤ) ≤ 21))]

/-- C1: range invariant of the whole scorer: on any pair of equal-length
vectors, any real snr (also outside [0, 30]) and any hour, the composed
pipeline succeeds with a final score in [0, 1]; and on any anomaly score in
[0, 1] the noise and time adjustments return a value in [0, input]. -/
theorem pipeline_range_invariant (baseline current : List ℝ) (snr : ℝ)
    (hour : Option ℤ) (hlen : baseline.length = current.length) :
    (∃ r, compare_embeddings baseline current snr hour = .ok r ∧
      0 ≤ r.score ∧ r.score ≤ 1) ∧
    (∀ a : ℝ, 0 ≤ a → a ≤ 1 →
      0 ≤ apply_noise_normalization a snr ∧ apply_noise_normalization a snr ≤ a) ∧
    (∀ a : ℝ, 0 ≤ a → a ≤ 1 →
      0 ≤ apply_time_compensation a hour ∧ apply_time_compensation a hour ≤ a) := by
  refine ⟨?_, fun a ha _ => apply_noise_normalization_bounds a snr ha,
    fun a ha _ => apply_time_compensation_bounds a hour ha⟩
  rcases cosine_similarity_ok baseline current hlen with ⟨s, hs, _, _⟩
  rw [compare_embeddings_ok baseline current snr hour s hs hlen]
  have h1 := similarity_to_anomaly_mem s
  have h2 := apply_noise_normalization_bounds (similarity_to_anomaly s) snr h1.1
  have h3 := apply_time_compensation_bounds
    (apply_noise_normalization (similarity_to_anomaly s) snr) hour h2.1
  exact ⟨_, rfl, h3.1, h3.2.trans (h2.2.trans h1.2)⟩

/-- Witness for C1 at baseline [1, 0], current [0, 1], snr -5, hour 7. -/
theorem pipeline_range_invariant_witness :
    (∃ r, compare_embeddings [1, 0] [0, 1] (-5) (some 7) = .ok r ∧
      0 ≤ r.score ∧ r.score ≤ 1) ∧
    (∀ a : ℝ, 0 ≤ a → a ≤ 1 →
      0 ≤ apply_noise_normalization a (-5) ∧ apply_noise_normalization a (-5) ≤ a) ∧
    (∀ a : ℝ, 0 ≤ a → a ≤ 1 →
      0 ≤ apply_time_compensation a (some 7) ∧
        apply_time_compensation a (some 7) ≤ a) :=
  pipeline_range_invariant [1, 0] [0, 1] (-5) (some 7) rfl

/-- Cosine similarity of the spec's end-to-end scenario vectors is 0.6. -/
theorem cosine_similarity_scenario :
    cosine_similarity [1, 0] [0.6, 0.8] = .ok 0.6 := by
  have h1 : sumSq [(1:ℝ), 0] = 1 := by norm_num [sumSq]
  have h2 : sumSq [(0.6:ℝ), 0.8] = 1 := by norm_num [sumSq]
  have hn1 : norm [(1:ℝ), 0] = 1 := by rw [norm, h1, Real.sqrt_one]
  have hn2 : norm [(0.6:ℝ), 0.8] = 1 := by rw [norm, h2, Real.sqrt_one]
  rw [cosine_similarity, if_neg (by simp),
    if_neg (by rw [hn1, hn2]; norm_num), hn1, hn2]
  norm_num [dot, min_def, max_def]

/-- C2 (amended): with the anomaly score in [0, 1], snr in [-45, 15) and the
hour in a discount window, noise compensation precedes time compensation and
the composition equals raw * (1 - noise_factor) * (1 - time_factor); the
spec's two end-to-end scenarios also evaluate as stated. -/
theorem pipeline_composition (a snr : ℝ) (h : ℤ)
    (ha0 : 0 ≤ a) (ha1 : a ≤ 1) (hlo : -45 ≤ snr) (hhi : snr < 15)
    (hw : (6 ≤ h ∧ h ≤ 9) ∨ (18 ≤ h ∧ h ≤ 21)) :
    apply_time_compensation (apply_noise_normalization a snr) (some h) =
      a * (1 - 0.25 * (15 - snr) / 15) *
        (1 - if 6 ≤ h ∧ h ≤ 9 then 0.08 else 0.06) ∧
    similarity_to_anomaly 0.6 = 0.4 ∧
    compare_embeddings [1, 0] [0.6, 0.8] 20 none = .ok ⟨0.4, 0.6, 0.4, 20⟩ ∧
    (∃ r, compare_embeddings [1, 0] [0.6, 0.8] 5 (some 7) = .ok r ∧
      |r.score - 0.3067| ≤ 1e-3) := by
  have hsta : similarity_to_anomaly 0.6 = 0.4 := by
    norm_num [similarity_to_anomaly, min_def, max_def]
  refine ⟨?_, hsta, ?_, ?_⟩
  · have hy : 0 ≤ a * (1 - 0.25 * (15 - snr) / 15) := by nlinarith
    have hann : apply_noise_normalization a snr =
        a * (1 - 0.25 * (15 - snr) / 15) := by
      simp only [apply_noise_normalization, if_pos hhi]
      rw [max_eq_right (by nlinarith)]
      ring
    rw [hann]
    rcases hw with hm | he
    · rw [apply_time_compensation, if_pos hm, if_pos hm,
        max_eq_right (by nlinarith)]
      ring
    · have hm : ¬(6 ≤ h ∧ h ≤ 9) := by
        rintro ⟨h1, h2⟩
        rcases he with ⟨h3, h4⟩
        omega
      rw [apply_time_compensation, if_neg hm, if_pos he, if_neg hm,
        max_eq_right (by nlinarith)]
      ring
  · rw [compare_embeddings_ok [1, 0] [0.6, 0.8] 20 none 0.6
      cosine_similarity_scenario rfl, hsta,
      show apply_noise_normalization 0.4 20 = 0.4 by
        rw [apply_noise_normalization, if_neg (by norm_num)]]
    rfl
  · rw [compare_embeddings_ok [1, 0] [0.6, 0.8] 5 (some 7) 0.6
      cosine_similarity_scenario rfl, hsta]
    have hn5 : apply_noise_normalization 0.4 5 = 1 / 3 := by
      simp only [apply_noise_normalization, if_pos (by norm_num : (5:ℝ) < 15)]
      rw [max_eq_right (by norm_num)]
      norm_num
    have ht7 : apply_time_compensation (1 / 3) (some 7) = 23 / 75 := by
      rw [apply_time_compensation, if_pos (by decide : (6:ℤ) ≤ 7 ∧ (7:ℤ) ≤ 9),
        max_eq_right (by norm_num)]
      norm_num
    rw [hn5, ht7]
    refine ⟨_, rfl, ?_⟩
    rw [abs_le]
    constructor <;> norm_num

/-- Witness for C2 at a = 0.4, snr = 5, hour = 7. -/
theorem pipeline_composition_witness :
    apply_time_compensation (apply_noise_normalization 0.4 5) (some 7) =
      0.4 * (1 - 0.25 * (15 - 5) / 15) *
        (1 - if 6 ≤ (7:ℤ) ∧ (7:ℤ) ≤ 9 then 0.08 else 0.06) ∧
    similarity_to_anomaly 0.6 = 0.4 ∧
    compare_embeddings [1, 0] [0.6, 0.8] 20 none = .ok ⟨0.4, 0.6, 0.4, 20⟩ ∧
    (∃ r, compare_embeddings [1, 0] [0.6, 0.8] 5 (some 7) = .ok r ∧
      |r.score - 0.3067| ≤ 1e-3) :=
  pipeline_composition 0.4 5 7 (by norm_num) (by norm_num) (by norm_num)
    (by norm_num) (Or.inl (by decide))

/-- Counterexample to C2 as frozen: at snr = -60 (below -45, where the
reduction factor exceeds 1) the zero floor engages, so the pipeline yields
0 while the claimed product formula is negative. -/
theorem pipeline_composition_counterexample :
    (0:ℝ) ≤ 0.4 ∧ (0.4:ℝ) ≤ 1 ∧ (-60:ℝ) < 15 ∧
    (6 ≤ (7:ℤ) ∧ (7:ℤ) ≤ 9) ∧
    apply_time_compensation (apply_noise_normalization 0.4 (-60)) (some 7) = 0 ∧
    (0.4:ℝ) * (1 - 0.25 * (15 - (-60)) / 15) * (1 - 0.08) = -0.092 := by
  have hann : apply_noise_normalization 0.4 (-60) = 0 := by
    simp only [apply_noise_normalization, if_pos (by norm_num : (-60:ℝ) < 15)]
    rw [max_eq_left (by norm_num)]
  refine ⟨by norm_num, by norm_num, by norm_num, by decide, ?_, by norm_num⟩
  rw [hann, apply_time_compensation, if_pos (by decide : (6:ℤ) ≤ 7 ∧ (7:ℤ) ≤ 9)]
  norm_num

/-- A concrete successful comparison: identical one-dimensional embeddings
at snr 20 with no hour give similarity 1 and score 0. -/
theorem compare_embeddings_singleton :
    compare_embeddings [1] [1] 20 none = .ok ⟨0, 1, 0, 20⟩ := by
  rw [compare_embeddings_ok [1] [1] 20 none 1
    (cosine_similarity_self [1] ⟨1, by simp, one_ne_zero⟩) rfl,
    show similarity_to_anomaly 1 = 0 by norm_num [similarity_to_anomaly],
    show apply_noise_normalization 0 20 = 0 by
      rw [apply_noise_normalization, if_neg (by norm_num)]]
  rfl

/-- C9: in every successful response of the comparison endpoint the score
and normalized fields are equal: both carry the single post-compensation
score. -/
theorem score_eq_normalized (baseline current : List ℝ) (snr : ℝ)
    (hour : Option ℤ) (r : CompareResponse)
    (hr : compare_embeddings baseline current snr hour = .ok r) :
    r.score = r.normalized := by
  by_cases hlen : baseline.length = current.length
  · rcases cosine_similarity_ok baseline current hlen with ⟨s, hs, _, _⟩
    rw [compare_embeddings_ok baseline current snr hour s hs hlen] at hr
    injection hr with h2
    rw [← h2]
  · rw [compare_embeddings, if_pos hlen] at hr
    exact absurd hr (by simp)

/-- Witness for C9 on the successful comparison of [1] with [1]. -/
theorem score_eq_normalized_witness :
    (⟨0, 1, 0, 20⟩ : CompareResponse).score =
      (⟨0, 1, 0, 20⟩ : CompareResponse).normalized :=
  score_eq_normalized [1] [1] 20 none ⟨0, 1, 0, 20⟩ compare_embeddings_singleton

/-- C7: the SNR estimator never propagates an error: on an internal failure
it returns the fixed default 15.0, otherwise the decibel formula with the
noise power floored at 1e-10 and the result clamped into [0, 30]; either
way the result lies in [0, 30]. -/
theorem compute_snr_spec (sp np : ℝ) (fl : Bool) :
    (0 ≤ compute_snr ⟨sp, np, fl⟩ ∧ compute_snr ⟨sp, np, fl⟩ ≤ 30) ∧
    (fl = true → compute_snr ⟨sp, np, fl⟩ = 15) ∧
    (fl = false → compute_snr ⟨sp, np, fl⟩ =
      max 0 (min 30 (10 * Real.logb 10
        (sp / (if np < 1e-10 then 1e-10 else np))))) := by
  cases fl
  · have hval : compute_snr ⟨sp, np, false⟩ =
        max 0 (min 30 (10 * Real.logb 10
          (sp / (if np < 1e-10 then 1e-10 else np)))) := by
      simp only [compute_snr, Bool.false_eq_true, if_false]
    refine ⟨?_, by simp, fun _ => hval⟩
    rw [hval]
    exact ⟨le_max_left _ _, max_le (by norm_num) (min_le_left _ _)⟩
  · have hval : compute_snr ⟨sp, np, true⟩ = 15 := by
      simp only [compute_snr, if_pos rfl]
      norm_num
    exact ⟨⟨hval ▸ by norm_num, hval ▸ by norm_num⟩, fun _ => hval, by simp⟩

/-- Element-wise mean of a list of d-dimensional vectors, written from the
spec's words to compare with the fold computed by average_embeddings. -/
noncomputable def elementwise_mean (l : List (List ℝ)) (d : ℕ) : List ℝ :=
  (List.range d).map (fun i => (l.map (fun v => v.getD i 0)).sum / (l.length : ℝ))

/-- The pointwise-addition fold over d-dimensional vectors keeps length d. -/
theorem foldl_zipWith_length (rest : List (List ℝ)) (v : List ℝ) (d : ℕ)
    (hv : v.length = d) (hr : ∀ w ∈ rest, w.length = d) :
    (rest.foldl (fun acc w => List.zipWith (fun x y => x + y) acc w) v).length
      = d := by
  induction rest generalizing v with
  | nil => simpa using hv
  | cons w t ih =>
    simp only [List.foldl_cons]
    refine ih (List.zipWith (fun x y => x + y) v w) ?_ ?_
    · simp [List.length_zipWith, hv, hr w (by simp)]
    · intro u hu
      exact hr u (by simp [hu])

/-- The pointwise-addition fold computes the per-coordinate sum. -/
theorem foldl_zipWith_getD (rest : List (List ℝ)) (v : List ℝ) (d : ℕ)
    (hv : v.length = d) (hr : ∀ w ∈ rest, w.length = d) (i : ℕ) (hi : i < d) :
    (rest.foldl (fun acc w => List.zipWith (fun x y => x + y) acc w) v).getD i 0
      = v.getD i 0 + (rest.map (fun w => w.getD i 0)).sum := by
  induction rest generalizing v with
  | nil => simp
  | cons w t ih =>
    have hwlen : w.length = d := hr w (by simp)
    have hzlen : (List.zipWith (fun x y => x + y) v w).length = d := by
      simp [List.length_zipWith, hv, hwlen]
    simp only [List.foldl_cons, List.map_cons, List.sum_cons]
    rw [ih (List.zipWith (fun x y => x + y) v w) hzlen
      (fun u hu => hr u (by simp [hu]))]
    have hz : (List.zipWith (fun x y => x + y) v w).getD i 0 =
        v.getD i 0 + w.getD i 0 := by
      rw [List.getD_eq_getElem _ _ (hzlen ▸ hi), List.getElem_zipWith,
        ← List.getD_eq_getElem _ 0 (hv ▸ hi), ← List.getD_eq_getElem _ 0 (hwlen ▸ hi)]
    rw [hz]
    ring

/-- The averaged vector computed by average_embeddings is the element-wise
mean of the inputs. -/
theorem averaged_eq_elementwise_mean (v : List ℝ) (rest : List (List ℝ)) (d : ℕ)
    (hd : ∀ w ∈ v :: rest, w.length = d) :
    ((rest.foldl (fun acc w => List.zipWith (fun x y => x + y) acc w) v).map
        (fun x => x / (((v :: rest).length : ℕ) : ℝ)))
      = elementwise_mean (v :: rest) d := by
  have hv : v.length = d := hd v (by simp)
  have hr : ∀ w ∈ rest, w.length = d := fun w hw => hd w (by simp [hw])
  have hslen := foldl_zipWith_length rest v d hv hr
  apply List.ext_getElem
  · simp [hslen, elementwise_mean]
  · intro i h1 h2
    have hi : i < d := by simpa [hslen] using h1
    simp only [List.getElem_map, elementwise_mean]
    rw [List.getElem_range]
    rw [← List.getD_eq_getElem _ 0 (hslen ▸ hi),
      foldl_zipWith_getD rest v d hv hr i hi]
    simp

/-- On a nonempty list of d-dimensional vectors, average_embeddings returns
the element-wise mean, normalised to unit length when its norm is positive
and unnormalised otherwise. -/
theorem average_embeddings_eq_mean (l : List (List ℝ)) (d : ℕ)
    (hne : l ≠ []) (hd : ∀ v ∈ l, v.length = d) :
    average_embeddings l =
      (if 0 < norm (elementwise_mean l d) then
        .ok ((elementwise_mean l d).map
          (fun x => x / norm (elementwise_mean l d)))
      else .ok (elementwise_mean l d)) := by
  match l with
  | [] => exact absurd rfl hne
  | v :: rest =>
    show (let summed := rest.foldl
            (fun acc w => List.zipWith (fun x y => x + y) acc w) v
          let averaged := summed.map
            (fun x => x / (((v :: rest).length : ℕ) : ℝ))
          let nrm := norm averaged
          if 0 < nrm then Except.ok (averaged.map (fun x => x / nrm))
          else Except.ok averaged) = _
    simp only
    rw [averaged_eq_elementwise_mean v rest d hd]

/-- C6: average_embeddings errors on the empty list; on a nonempty list of
equal-length vectors it returns the element-wise mean normalised to unit
Euclidean length, except that a zero-norm mean is returned unnormalised;
averaging [[1,0],[0,1]] gives [0.7071, 0.7071] within 1e-4 per component. -/
theorem average_embeddings_spec (l : List (List ℝ)) (d : ℕ)
    (hne : l ≠ []) (hd : ∀ v ∈ l, v.length = d) :
    average_embeddings ([] : List (List ℝ)) =
      .error "Cannot average empty list of embeddings" ∧
    average_embeddings l =
      (if 0 < norm (elementwise_mean l d) then
        .ok ((elementwise_mean l d).map
          (fun x => x / norm (elementwise_mean l d)))
      else .ok (elementwise_mean l d)) ∧
    (∃ u w : ℝ, average_embeddings [[1, 0], [0, 1]] = .ok [u, w] ∧
      |u - 0.7071| ≤ 1e-4 ∧ |w - 0.7071| ≤ 1e-4) := by
  refine ⟨rfl, average_embeddings_eq_mean l d hne hd, ?_⟩
  have hM : elementwise_mean [[(1:ℝ), 0], [0, 1]] 2 = [1 / 2, 1 / 2] := by
    norm_num [elementwise_mean, List.range_succ]
  have hnorm : norm [(1:ℝ) / 2, 1 / 2] = Real.sqrt (1 / 2) := by
    rw [norm]
    norm_num [sumSq]
  have hpos : 0 < Real.sqrt ((1:ℝ) / 2) := Real.sqrt_pos.mpr (by norm_num)
  have havg := average_embeddings_eq_mean [[(1:ℝ), 0], [0, 1]] 2 (by simp) (by simp)
  rw [hM, hnorm, if_pos hpos] at havg
  have hu : (1 / 2 : ℝ) / Real.sqrt (1 / 2) = Real.sqrt (1 / 2) := by
    rw [div_eq_iff hpos.ne']
    exact (Real.mul_self_sqrt (by norm_num)).symm
  have hlow : (0.7070 : ℝ) ≤ Real.sqrt (1 / 2) := by
    rw [show (0.7070 : ℝ) = Real.sqrt (0.7070 ^ 2) from
      (Real.sqrt_sq (by norm_num)).symm]
    exact Real.sqrt_le_sqrt (by norm_num)
  have hhigh : Real.sqrt ((1:ℝ) / 2) ≤ 0.7072 := by
    rw [show (0.7072 : ℝ) = Real.sqrt (0.7072 ^ 2) from
      (Real.sqrt_sq (by norm_num)).symm]
    exact Real.sqrt_le_sqrt (by norm_num)
  refine ⟨Real.sqrt (1 / 2), Real.sqrt (1 / 2), ?_, ?_, ?_⟩
  · rw [havg]
    simp only [List.map_cons, List.map_nil, hu]
  · rw [abs_le]
    constructor <;> linarith
  · rw [abs_le]
    constructor <;> linarith

/-- Witness for C6 at the concrete list [[1, 0], [0, 1]] with d = 2. -/
theorem average_embeddings_spec_witness :
    average_embeddings ([] : List (List ℝ)) =
      .error "Cannot average empty list of embeddings" ∧
    average_embeddings [[1, 0], [0, 1]] =
      (if 0 < norm (elementwise_mean [[1, 0], [0, 1]] 2) then
        .ok ((elementwise_mean [[1, 0], [0, 1]] 2).map
          (fun x => x / norm (elementwise_mean [[1, 0], [0, 1]] 2)))
      else .ok (elementwise_mean [[1, 0], [0, 1]] 2)) ∧
    (∃ u w : ℝ, average_embeddings [[1, 0], [0, 1]] = .ok [u, w] ∧
      |u - 0.7071| ≤ 1e-4 ∧ |w - 0.7071| ≤ 1e-4) :=
  average_embeddings_spec [[1, 0], [0, 1]] 2 (by simp) (by simp)

/-- Witness for C10 at the concrete input x = 3, hour = -1. -/
theorem time_compensation_total_witness :
    apply_time_compensation 3 (some (-1)) = 3 ∧
    apply_time_compensation 3 (some (-1)) = 3 ∧
    apply_time_compensation 3 (some 24) = 3 ∧
    apply_time_compensation 3 (some 100) = 3 :=
  time_compensation_total 3 (-1) (by decide) (by decide)

end RetroCare
